import Mathlib

set_option maxRecDepth 4000

/-!
Verification development for the CC2531 OEM flasher (`oem_flasher.py`).

The Python program builds exploit payloads for the stock TI sniffer firmware:
a variant-indexed memory-layout table (`MEM_LAYOUTS`), a payload serializer
(`MemLayout.construct_payload`), a low-level overflow write (`Dongle.write`),
a three-step exploit sequence in `__main__` (upload, enable XMAP, overwrite
return address), and a bounded device-reappearance poll
(`find_new_device_on_same_usb_port`).

We give a shallow embedding: bytes are `List Nat`, Python ints are `Int`,
fallible Python code returns `Except PyError`, and device side effects are
recorded as explicit event traces.
-/

set_option autoImplicit false

namespace OemFlasher

/-- Names of the payload variables of `MemLayout._conv`, in their source order. -/
inductive FieldName where
  | usb_state
  | req_state
  | wptr
  | addrspace
  | wlen
  | data
  deriving DecidableEq, Repr

/-- Python runtime errors arising on the code paths we model:
`valueError` from `bytes(negative)`, `overflowError` from `int.to_bytes` on an
out-of-range value, `attributeError` from calling `to_bytes` on a non-int,
`keyError` from a missing `kwargs` entry, and `assertionFailed` from the
`assert dev.bcdDevice in MEM_LAYOUTS` guard (carrying the unknown variant). -/
inductive PyError where
  | valueError
  | overflowError
  | attributeError
  | keyError (name : FieldName)
  | assertionFailed (bcdDevice : Nat)
  deriving DecidableEq, Repr

/-- A dynamically typed Python value as passed to `construct_payload`:
either an int or a bytes object. -/
inductive PyVal where
  | int (n : Int)
  | raw (bs : List Nat)
  deriving DecidableEq, Repr

/-- The serialization function attached to a field in `MemLayout._conv`:
`u8`, `u16`, or the builtin `bytes`. -/
inductive ConvKind where
  | cU8
  | cU16
  | cBytes
  deriving DecidableEq, Repr

/-- Little-endian digits base 256: the value of `n.to_bytes(k, 'little')`. -/
def natToLE : Nat → Nat → List Nat
  | _, 0 => []
  | n, k + 1 => n % 256 :: natToLE (n / 256) k

/-- Python's `int.to_bytes(len, 'little')`: raises `OverflowError` when the
value is negative or does not fit in `len` bytes. -/
def pyToBytes (n : Int) (len : Nat) : Except PyError (List Nat) :=
  if 0 ≤ n ∧ n < (256 : Int) ^ len then .ok (natToLE n.toNat len) else .error .overflowError

/-- `u8` from the source: `n.to_bytes(1, 'little')`. -/
def u8 (n : Int) : Except PyError (List Nat) :=
  pyToBytes n 1

/-- `u16` from the source: `n.to_bytes(2, 'little')`. -/
def u16 (n : Int) : Except PyError (List Nat) :=
  pyToBytes n 2

/-- The `MemLayout` dataclass: absolute addresses of the relevant firmware
variables. The Python constructor performs no validation, so this is a plain
structure with a total constructor. -/
structure MemLayout where
  transfer_buf_start : Int
  usb_state : Int
  req_state : Int
  wptr : Int
  addrspace : Int
  wlen : Int
  data : Int
  stack_ret : Int
  deriving DecidableEq, Repr

/-- `getattr(self, name)` for the payload fields. -/
def fieldAddr (l : MemLayout) : FieldName → Int
  | .usb_state => l.usb_state
  | .req_state => l.req_state
  | .wptr => l.wptr
  | .addrspace => l.addrspace
  | .wlen => l.wlen
  | .data => l.data

/-- `MemLayout._conv`: payload variable names and serialization functions,
in source order. -/
def convTable : List (FieldName × ConvKind) :=
  [(.usb_state, .cU8), (.req_state, .cU8), (.wptr, .cU16),
   (.addrspace, .cU8), (.wlen, .cU16), (.data, .cBytes)]

/-- Python's `bytes(k)` on an int argument: `k` zero bytes, or `ValueError`
when `k` is negative. -/
def pyZeroBytes (k : Int) : Except PyError (List Nat) :=
  if 0 ≤ k then .ok (List.replicate k.toNat 0) else .error .valueError

/-- Python's builtin `bytes(...)` applied to a dynamically typed value:
verbatim on a bytes object, zero-filled on an int. -/
def pyBytesOfVal : PyVal → Except PyError (List Nat)
  | .raw bs => .ok bs
  | .int n => pyZeroBytes n

/-- `conv_fn(value)`: apply a field's serialization function to the supplied
value. `u8`/`u16` on a bytes object is the `AttributeError` of calling
`to_bytes` on a non-int. -/
def applyConv : ConvKind → PyVal → Except PyError (List Nat)
  | .cU8, .int n => u8 n
  | .cU16, .int n => u16 n
  | .cU8, .raw _ => .error .attributeError
  | .cU16, .raw _ => .error .attributeError
  | .cBytes, v => pyBytesOfVal v

/-- The loop body of `MemLayout.construct_payload`, one field at a time:
compute the padding (`bytes(addr - transfer_buf_start - len(payload))`,
which raises on a negative count), look up the field in `kwargs` (raising
`KeyError` when absent), serialize, and append. -/
def payloadLoop (l : MemLayout) (kw : FieldName → Option PyVal) :
    List (FieldName × ConvKind) → List Nat → Except PyError (List Nat)
  | [], payload => .ok payload
  | (name, ck) :: rest, payload =>
    match pyZeroBytes (fieldAddr l name - l.transfer_buf_start - payload.length) with
    | .error e => .error e
    | .ok padding =>
      match kw name with
      | none => .error (.keyError name)
      | some v =>
        match applyConv ck v with
        | .error e => .error e
        | .ok value => payloadLoop l kw rest (payload ++ padding ++ value)

/-- `MemLayout.construct_payload`: pad and serialize the payload variables of
`_conv` in order, starting from an empty buffer. -/
def MemLayout.construct_payload (l : MemLayout) (kw : FieldName → Option PyVal) :
    Except PyError (List Nat) :=
  payloadLoop l kw convTable []

/-- The `MEM_LAYOUTS[0x8391]` entry. -/
def layout8391 : MemLayout where
  transfer_buf_start := 0x20f
  usb_state := 0x35d
  req_state := 0x364
  wptr := 0x371
  addrspace := 0x373
  wlen := 0x375
  data := 0x38f
  stack_ret := 0xc2

/-- The `MEM_LAYOUTS[0x0821]` entry. -/
def layout0821 : MemLayout where
  transfer_buf_start := 0x202
  usb_state := 0x377
  req_state := 0x37e
  wptr := 0x38b
  addrspace := 0x38d
  wlen := 0x38f
  data := 0x3a2
  stack_ret := 0xc2

/-- The `MEM_LAYOUTS[0x2517]` entry. -/
def layout2517 : MemLayout where
  transfer_buf_start := 0x202
  usb_state := 0x377
  req_state := 0x37e
  wptr := 0x38b
  addrspace := 0x38d
  wlen := 0x38f
  data := 0x3a2
  stack_ret := 0xc2

/-- The static `MEM_LAYOUTS` dict, keyed by `bcdDevice`. -/
def MEM_LAYOUTS : List (Nat × MemLayout) :=
  [(0x8391, layout8391), (0x0821, layout0821), (0x2517, layout2517)]

/-- `get_layout_for_dev`: `assert dev.bcdDevice in MEM_LAYOUTS` (an
`AssertionError` carrying the variant when absent), then the dict lookup. -/
def get_layout_for_dev (bcdDevice : Nat) : Except PyError MemLayout :=
  match MEM_LAYOUTS.lookup bcdDevice with
  | some l => .ok l
  | none => .error (.assertionFailed bcdDevice)

/-- One raw USB control transfer as issued by `dev.ctrl_transfer`. -/
structure CtrlTransfer where
  bmRequestType : Nat
  bRequest : Nat
  wValue : Nat
  wIndex : Nat
  payload : List Nat
  deriving DecidableEq, Repr

/-- The keyword arguments `Dongle.write` passes to `construct_payload`
(source lines 158-165). -/
def writeKwargs (data : List Nat) (addr : Int) (idata : Bool) : FieldName → Option PyVal
  | .usb_state => some (.int 2)
  | .req_state => some (.int 2)
  | .wptr => some (.int (addr - 32))
  | .addrspace => some (.int (if idata then 1 else 0))
  | .wlen => some (.int ((data.length : Int) + 32))
  | .data => some (.raw data)

/-- `Dongle.write`: build the overflow payload and issue it as a single
control transfer with `bmRequestType = 0x40`, `bRequest = 0xD2`,
`wValue = wIndex = 0`. The returned list is the trace of transfers issued. -/
def Dongle.write (l : MemLayout) (data : List Nat) (addr : Int) (idata : Bool) :
    Except PyError (List CtrlTransfer) :=
  match l.construct_payload (writeKwargs data addr idata) with
  | .ok payload => .ok [⟨0x40, 0xd2, 0, 0, payload⟩]
  | .error e => .error e

/-- Observable device interactions of the host-side code, in order. -/
inductive DevEvent where
  | reset
  | setConfig
  | ctrlWrite (t : CtrlTransfer)
  deriving DecidableEq, Repr

/-- `Dongle.__init__`: the layout lookup happens first; only when it succeeds
are `dev.reset()` and `dev.set_configuration()` issued. The trace records the
device I/O performed. -/
def Dongle.init (bcdDevice : Nat) : List DevEvent × Except PyError MemLayout :=
  match get_layout_for_dev bcdDevice with
  | .error e => ([], .error e)
  | .ok l => ([.reset, .setConfig], .ok l)

/-- A dongle session up to and including the first overflow write, for a given
(already resolved) layout: `Dongle.__init__` issues `reset` and
`set_configuration`, then `upload_file_contents` performs the first
`Dongle.write`. An encoding failure aborts before any control transfer. -/
def dongleSession (l : MemLayout) (data : List Nat) (offset : Int) :
    List DevEvent × Except PyError Unit :=
  match Dongle.write l data offset false with
  | .ok ts => ([DevEvent.reset, DevEvent.setConfig] ++ ts.map DevEvent.ctrlWrite, .ok ())
  | .error e => ([DevEvent.reset, DevEvent.setConfig], .error e)

/-- The three device-mutating steps of `__main__`
(`upload_file_contents`, `enable_xmap`, `overwrite_return_address`). -/
inductive ExploitStep where
  | upload
  | enableXmap
  | hijackReturn
  deriving DecidableEq, Repr

/-- The straight-line sequence of `__main__` over the three steps, with an
oracle `ok` telling which underlying raw writes succeed. A Python exception
from a failing step propagates, so later statements never run. The result is
the ordered trace of steps that were invoked, and whether the run completed. -/
def runExploitSteps (ok : ExploitStep → Bool) : List ExploitStep × Bool :=
  if ok .upload = false then ([.upload], false)
  else if ok .enableXmap = false then ([.upload, .enableXmap], false)
  else ([.upload, .enableXmap, .hijackReturn], ok .hijackReturn)

/-- What one iteration of the reappearance loop observes: no device on the
port, a device that raises `USBError` from `set_configuration`, or a device
that configures successfully. -/
inductive PollIter where
  | absent
  | transientFail
  | ready
  deriving DecidableEq, Repr

/-- The `for retry in range(10)` loop of `find_new_device_on_same_usb_port`,
with `fuel` iterations left, currently at iteration `i`. Returns the index of
the iteration whose device was successfully configured (identifying the
returned device), or `none` when the loop falls through. -/
def pollLoop (env : Nat → PollIter) : Nat → Nat → Option Nat
  | _, 0 => none
  | i, fuel + 1 =>
    match env i with
    | .ready => some i
    | _ => pollLoop env (i + 1) fuel

/-- `find_new_device_on_same_usb_port`: ten bounded attempts starting at
iteration 0. -/
def find_new_device_on_same_usb_port (env : Nat → PollIter) : Option Nat :=
  pollLoop env 0 10

/-- A value matches a field's declared encoding: ints in range for `u8`/`u16`,
a bytes object for `bytes`. -/
def fits : ConvKind → PyVal → Prop
  | .cU8, .int n => 0 ≤ n ∧ n < 256
  | .cU16, .int n => 0 ≤ n ∧ n < 65536
  | .cBytes, .raw _ => True
  | .cU8, .raw _ => False
  | .cU16, .raw _ => False
  | .cBytes, .int _ => False

/-- Serialized length of a well-typed value under a given serializer. -/
def serWidth : ConvKind → PyVal → Nat
  | .cU8, _ => 1
  | .cU16, _ => 2
  | .cBytes, .raw bs => bs.length
  | .cBytes, .int n => n.toNat

/-- Outcome classification of an encoding run, as the spec words it. -/
inductive EncOutcome where
  | encodingError
  | missingField (name : FieldName)
  | success
  deriving DecidableEq, Repr

/-- Modelled from the spec: the encoder's control flow as section 4.2 words
it — walk the fields in order with a cursor, fail on a negative padding
length, fail on a field absent from the supplied values, advance the cursor
past each serialized field, and succeed when all fields are processed. -/
def specOutcomeLoop (l : MemLayout) (kw : FieldName → Option PyVal) :
    List (FieldName × ConvKind) → Int → EncOutcome
  | [], _ => .success
  | (name, ck) :: rest, cursor =>
    if fieldAddr l name - cursor < 0 then .encodingError
    else
      match kw name with
      | none => .missingField name
      | some v => specOutcomeLoop l kw rest (fieldAddr l name + serWidth ck v)

/-- Modelled from the spec: outcome of `encode(layout, field_values)` starting
with the cursor at `transfer_buffer_start`. -/
def specOutcome (l : MemLayout) (kw : FieldName → Option PyVal) : EncOutcome :=
  specOutcomeLoop l kw convTable l.transfer_buf_start

/-- The layout invariant of the spec's data model: each field address is
reachable from the previous field's encoded end by a nonnegative amount of
padding (field widths per `_conv`: 1, 1, 2, 1, 2, then the raw data). -/
def layoutValid (l : MemLayout) : Prop :=
  l.transfer_buf_start ≤ l.usb_state ∧
  l.usb_state + 1 ≤ l.req_state ∧
  l.req_state + 1 ≤ l.wptr ∧
  l.wptr + 2 ≤ l.addrspace ∧
  l.addrspace + 1 ≤ l.wlen ∧
  l.wlen + 2 ≤ l.data

instance (l : MemLayout) : Decidable (layoutValid l) := by
  unfold layoutValid
  infer_instance

/-- A field-value set supplying every field of `_conv`, each with the
matching Python type. -/
def fullKw (a b w c ln : Int) (bs : List Nat) : FieldName → Option PyVal
  | .usb_state => some (.int a)
  | .req_state => some (.int b)
  | .wptr => some (.int w)
  | .addrspace => some (.int c)
  | .wlen => some (.int ln)
  | .data => some (.raw bs)

/-- Modelled from the spec: the field-value set section 4.3 prescribes for
`write_bytes` — fixed sentinel states 2, the pre-increment-compensated write
pointer and length, the address-space selector, and the data verbatim. -/
def specWriteFieldValues (data : List Nat) (target : Int) (secondary : Bool) :
    FieldName → Option PyVal
  | .usb_state => some (.int 2)
  | .req_state => some (.int 2)
  | .wptr => some (.int (target - 32))
  | .addrspace => some (.int (if secondary then 1 else 0))
  | .wlen => some (.int ((data.length : Int) + 32))
  | .data => some (.raw data)

/-- Field addresses of a layout, in the declared field order of `_conv`. -/
def fieldAddrsOf (l : MemLayout) : List Int :=
  [l.usb_state, l.req_state, l.wptr, l.addrspace, l.wlen, l.data]

/-- A deliberately broken layout for the invariant claims: identical to
`layout8391` except that `usb_state` lies below `transfer_buf_start`, so no
nonnegative padding can reach it. -/
def badLayout4 : MemLayout where
  transfer_buf_start := 0x20f
  usb_state := 0x200
  req_state := 0x364
  wptr := 0x371
  addrspace := 0x373
  wlen := 0x375
  data := 0x38f
  stack_ret := 0xc2

/-- Supplied values match the declared encodings of the fields in `L`. -/
def WellTypedOn (kw : FieldName → Option PyVal) (L : List (FieldName × ConvKind)) : Prop :=
  ∀ p ∈ L, ∀ v, kw p.1 = some v → fits p.2 v

lemma u8_ok {n : Int} (h0 : 0 ≤ n) (h1 : n < 256) : u8 n = .ok [n.toNat] := by
  unfold u8 pyToBytes
  rw [if_pos ⟨h0, by norm_num [h1]⟩]
  simp [natToLE, Nat.mod_eq_of_lt (show n.toNat < 256 by omega)]

lemma u16_ok {n : Int} (h0 : 0 ≤ n) (h1 : n < 65536) :
    u16 n = .ok [n.toNat % 256, n.toNat / 256] := by
  unfold u16 pyToBytes
  rw [if_pos ⟨h0, by norm_num [h1]⟩]
  simp [natToLE, Nat.mod_eq_of_lt (show n.toNat / 256 < 256 by omega)]

lemma cp8391_ok (a b w c ln : Int) (bs : List Nat)
    (ha0 : 0 ≤ a) (ha1 : a < 256) (hb0 : 0 ≤ b) (hb1 : b < 256)
    (hw0 : 0 ≤ w) (hw1 : w < 65536) (hc0 : 0 ≤ c) (hc1 : c < 256)
    (hl0 : 0 ≤ ln) (hl1 : ln < 65536) :
    layout8391.construct_payload (fullKw a b w c ln bs) =
      .ok (List.replicate 334 0 ++ [a.toNat] ++ List.replicate 6 0 ++ [b.toNat]
        ++ List.replicate 12 0 ++ [w.toNat % 256, w.toNat / 256] ++ [c.toNat]
        ++ List.replicate 1 0 ++ [ln.toNat % 256, ln.toNat / 256]
        ++ List.replicate 24 0 ++ bs) := by
  simp [MemLayout.construct_payload, convTable, payloadLoop, fieldAddr, layout8391,
    pyZeroBytes, fullKw, applyConv, pyBytesOfVal,
    u8_ok ha0 ha1, u8_ok hb0 hb1, u16_ok hw0 hw1, u8_ok hc0 hc1, u16_ok hl0 hl1]

end OemFlasher
namespace OemFlasher

lemma applyConv_fits {ck : ConvKind} {v : PyVal} (h : fits ck v) :
    ∃ out, applyConv ck v = .ok out ∧ out.length = serWidth ck v := by
  cases ck <;> cases v <;> simp [fits] at h ⊢
  · exact ⟨_, u8_ok h.1 h.2, by simp [serWidth]⟩
  · exact ⟨_, u16_ok h.1 h.2, by simp [serWidth]⟩
  · exact ⟨_, rfl, by simp [serWidth, pyBytesOfVal]⟩

lemma payloadLoop_matches (l : MemLayout) (kw : FieldName → Option PyVal) :
    ∀ (L : List (FieldName × ConvKind)) (payload : List Nat),
      WellTypedOn kw L →
      (match specOutcomeLoop l kw L (l.transfer_buf_start + payload.length) with
        | .success => ∃ out, payloadLoop l kw L payload = .ok out
        | .encodingError => payloadLoop l kw L payload = .error .valueError
        | .missingField n => payloadLoop l kw L payload = .error (.keyError n)) := by
  intro L
  induction L with
  | nil => intro payload _; exact ⟨payload, rfl⟩
  | cons p rest ih =>
    intro payload hwt
    obtain ⟨name, ck⟩ := p
    by_cases hneg : fieldAddr l name - (l.transfer_buf_start + (payload.length : Int)) < 0
    · have hmatch : specOutcomeLoop l kw ((name, ck) :: rest)
          (l.transfer_buf_start + (payload.length : Int)) = .encodingError := by
        simp only [specOutcomeLoop, if_pos hneg]
      have hzero : pyZeroBytes (fieldAddr l name - l.transfer_buf_start - payload.length) =
          .error .valueError := by
        unfold pyZeroBytes
        rw [if_neg (by omega)]
      have hcode : payloadLoop l kw ((name, ck) :: rest) payload = .error .valueError := by
        simp only [payloadLoop, hzero]
      simp only [hmatch]
      exact hcode
    · have hpad : pyZeroBytes (fieldAddr l name - l.transfer_buf_start - payload.length) =
          .ok (List.replicate
            (fieldAddr l name - l.transfer_buf_start - payload.length).toNat 0) := by
        unfold pyZeroBytes
        rw [if_pos (by omega)]
      match hkw : kw name with
      | none =>
        have hmatch : specOutcomeLoop l kw ((name, ck) :: rest)
            (l.transfer_buf_start + (payload.length : Int)) = .missingField name := by
          simp only [specOutcomeLoop, if_neg hneg, hkw]
        have hcode : payloadLoop l kw ((name, ck) :: rest) payload =
            .error (.keyError name) := by
          simp only [payloadLoop, hpad, hkw]
        simp only [hmatch]
        exact hcode
      | some v =>
        have hfit : fits ck v := hwt (name, ck) (by simp) v hkw
        obtain ⟨out, hconv, hlen⟩ := applyConv_fits hfit
        have hrest := ih (payload ++ List.replicate
            (fieldAddr l name - l.transfer_buf_start - payload.length).toNat 0 ++ out)
          (fun p hp v hv => hwt p (by simp [hp]) v hv)
        have hcursor : l.transfer_buf_start +
            ((payload ++ List.replicate
              (fieldAddr l name - l.transfer_buf_start - payload.length).toNat 0
              ++ out).length : Int) =
            fieldAddr l name + (serWidth ck v : Int) := by
          simp [hlen]
          omega
        rw [hcursor] at hrest
        have hmatch : specOutcomeLoop l kw ((name, ck) :: rest)
            (l.transfer_buf_start + (payload.length : Int)) =
            specOutcomeLoop l kw rest (fieldAddr l name + (serWidth ck v : Int)) := by
          simp only [specOutcomeLoop, if_neg hneg, hkw]
        have hstep : payloadLoop l kw ((name, ck) :: rest) payload =
            payloadLoop l kw rest (payload ++ List.replicate
              (fieldAddr l name - l.transfer_buf_start - payload.length).toNat 0 ++ out) := by
          simp only [payloadLoop, hpad, hkw, hconv]
        simp only [hmatch, hstep]
        exact hrest

lemma construct_payload_classified (l : MemLayout) (kw : FieldName → Option PyVal)
    (hwt : WellTypedOn kw convTable) :
    match specOutcome l kw with
      | .success => ∃ out, l.construct_payload kw = .ok out
      | .encodingError => l.construct_payload kw = .error .valueError
      | .missingField n => l.construct_payload kw = .error (.keyError n) := by
  have h := payloadLoop_matches l kw convTable [] hwt
  simpa [specOutcome, MemLayout.construct_payload] using h

lemma specOutcome_fullKw (l : MemLayout) (a b w c ln : Int) (bs : List Nat) :
    specOutcome l (fullKw a b w c ln bs) =
      if layoutValid l then .success else .encodingError := by
  simp only [specOutcome, specOutcomeLoop, convTable, fieldAddr, serWidth, fullKw, layoutValid]
  split_ifs <;> first | rfl | (exfalso; omega)

lemma fullKw_wellTyped {a b w c ln : Int} {bs : List Nat}
    (ha0 : 0 ≤ a) (ha1 : a < 256) (hb0 : 0 ≤ b) (hb1 : b < 256)
    (hw0 : 0 ≤ w) (hw1 : w < 65536) (hc0 : 0 ≤ c) (hc1 : c < 256)
    (hl0 : 0 ≤ ln) (hl1 : ln < 65536) :
    WellTypedOn (fullKw a b w c ln bs) convTable := by
  intro p hp v hv
  fin_cases hp <;> simp [fullKw] at hv <;> simp [← hv, fits] <;> omega

lemma writeKwargs_eq_fullKw (data : List Nat) (addr : Int) (idata : Bool) :
    writeKwargs data addr idata =
      fullKw 2 2 (addr - 32) (if idata then 1 else 0) ((data.length : Int) + 32) data := by
  funext n
  cases n <;> rfl

lemma writeKwargs_eq_spec (data : List Nat) (addr : Int) (idata : Bool) :
    writeKwargs data addr idata = specWriteFieldValues data addr idata := by
  funext n
  cases n <;> rfl

lemma pollLoop_finds (env : Nat → PollIter) :
    ∀ (fuel i r : Nat), i ≤ r → r < i + fuel → env r = .ready →
      (∀ j, i ≤ j → j < r → env j ≠ .ready) → pollLoop env i fuel = some r := by
  intro fuel
  induction fuel with
  | zero => intro i r h1 h2 _ _; omega
  | succ fuel ih =>
    intro i r h1 h2 hr hbefore
    by_cases hi : i = r
    · subst hi
      simp [pollLoop, hr]
    · have henv : env i ≠ .ready := hbefore i le_rfl (by omega)
      have hrec : pollLoop env (i + 1) fuel = some r :=
        ih (i + 1) r (by omega) (by omega) hr
          (fun j hj1 hj2 => hbefore j (by omega) hj2)
      cases he : env i
      · simp [pollLoop, he, hrec]
      · simp [pollLoop, he, hrec]
      · exact absurd he henv

lemma pollLoop_exhausts (env : Nat → PollIter) :
    ∀ (fuel i : Nat), (∀ j, i ≤ j → j < i + fuel → env j ≠ .ready) →
      pollLoop env i fuel = none := by
  intro fuel
  induction fuel with
  | zero => intro i _; rfl
  | succ fuel ih =>
    intro i h
    have henv : env i ≠ .ready := h i le_rfl (by omega)
    have hrec : pollLoop env (i + 1) fuel = none :=
      ih (i + 1) (fun j hj1 hj2 => h j (by omega) (by omega))
    cases he : env i
    · simp [pollLoop, he, hrec]
    · simp [pollLoop, he, hrec]
    · exact absurd he henv

lemma pollLoop_transient_congr (env env2 : Nat → PollIter)
    (h : ∀ i, env i = .ready ↔ env2 i = .ready) :
    ∀ fuel i, pollLoop env i fuel = pollLoop env2 i fuel := by
  intro fuel
  induction fuel with
  | zero => intro i; rfl
  | succ fuel ih =>
    intro i
    by_cases hr : env i = .ready
    · have hr2 : env2 i = .ready := (h i).1 hr
      simp [pollLoop, hr, hr2]
    · have hr2 : env2 i ≠ .ready := fun hh => hr ((h i).2 hh)
      have e1 : pollLoop env i (fuel + 1) = pollLoop env (i + 1) fuel := by
        cases he : env i
        · simp [pollLoop, he]
        · simp [pollLoop, he]
        · exact absurd he hr
      have e2 : pollLoop env2 i (fuel + 1) = pollLoop env2 (i + 1) fuel := by
        cases he : env2 i
        · simp [pollLoop, he]
        · simp [pollLoop, he]
        · exact absurd he hr2
      rw [e1, e2, ih]

lemma cp0821_ok (a b w c ln : Int) (bs : List Nat)
    (ha0 : 0 ≤ a) (ha1 : a < 256) (hb0 : 0 ≤ b) (hb1 : b < 256)
    (hw0 : 0 ≤ w) (hw1 : w < 65536) (hc0 : 0 ≤ c) (hc1 : c < 256)
    (hl0 : 0 ≤ ln) (hl1 : ln < 65536) :
    layout0821.construct_payload (fullKw a b w c ln bs) =
      .ok (List.replicate 373 0 ++ [a.toNat] ++ List.replicate 6 0 ++ [b.toNat]
        ++ List.replicate 12 0 ++ [w.toNat % 256, w.toNat / 256] ++ [c.toNat]
        ++ List.replicate 1 0 ++ [ln.toNat % 256, ln.toNat / 256]
        ++ List.replicate 17 0 ++ bs) := by
  simp [MemLayout.construct_payload, convTable, payloadLoop, fieldAddr, layout0821,
    pyZeroBytes, fullKw, applyConv, pyBytesOfVal,
    u8_ok ha0 ha1, u8_ok hb0 hb1, u16_ok hw0 hw1, u8_ok hc0 hc1, u16_ok hl0 hl1]

lemma layout2517_eq : layout2517 = layout0821 := rfl

/-- C5: for every firmware variant in the static table (0x8391, 0x0821,
0x2517), `get_layout_for_dev` returns the table layout, the field addresses of
that layout strictly increase in declared order, and `transfer_buf_start` is
at most the first field's address. -/
theorem C5_resolve_table_layouts_sorted :
    (get_layout_for_dev 0x8391 = .ok layout8391 ∧
      List.Chain' (· < ·) (fieldAddrsOf layout8391) ∧
      layout8391.transfer_buf_start ≤ layout8391.usb_state) ∧
    (get_layout_for_dev 0x0821 = .ok layout0821 ∧
      List.Chain' (· < ·) (fieldAddrsOf layout0821) ∧
      layout0821.transfer_buf_start ≤ layout0821.usb_state) ∧
    (get_layout_for_dev 0x2517 = .ok layout2517 ∧
      List.Chain' (· < ·) (fieldAddrsOf layout2517) ∧
      layout2517.transfer_buf_start ≤ layout2517.usb_state) :=
  ⟨⟨rfl, by norm_num [fieldAddrsOf, layout8391, List.chain'_cons, List.chain'_singleton],
      by norm_num [layout8391]⟩,
    ⟨rfl, by norm_num [fieldAddrsOf, layout0821, List.chain'_cons, List.chain'_singleton],
      by norm_num [layout0821]⟩,
    ⟨rfl, by norm_num [fieldAddrsOf, layout2517, List.chain'_cons, List.chain'_singleton],
      by norm_num [layout2517]⟩⟩

/-- C6: `get_layout_for_dev` fails with the unsupported-variant assertion
carrying exactly the probed `bcdDevice` whenever the variant is absent from
`MEM_LAYOUTS`, and returns the table's entry whenever it is present. -/
theorem C6_resolve_unsupported_variant (bcd : Nat) :
    (MEM_LAYOUTS.lookup bcd = none →
      get_layout_for_dev bcd = .error (.assertionFailed bcd)) ∧
    (∀ l, MEM_LAYOUTS.lookup bcd = some l → get_layout_for_dev bcd = .ok l) := by
  constructor
  · intro h
    simp [get_layout_for_dev, h]
  · intro l h
    simp [get_layout_for_dev, h]

/-- C6 witness: the variant 0x9999 is absent from the table, and resolving it
fails with the assertion carrying 0x9999. -/
theorem C6_resolve_unsupported_variant_witness :
    get_layout_for_dev 0x9999 = .error (.assertionFailed 0x9999) :=
  (C6_resolve_unsupported_variant 0x9999).1 (by decide)

/-- C9: every 16-bit value is encoded by `u16` (the serializer `_conv`
attaches to `wlen`) as exactly two bytes in little-endian order. -/
theorem C9_u16_two_bytes_little_endian (n : Int) (h0 : 0 ≤ n) (h1 : n < 65536) :
    u16 n = .ok [n.toNat % 256, n.toNat / 256] ∧
    (FieldName.wlen, ConvKind.cU16) ∈ convTable ∧
    [n.toNat % 256, n.toNat / 256].length = 2 :=
  ⟨u16_ok h0 h1, by decide, rfl⟩

/-- C9 witness: 300 encodes as `0x2C, 0x01`. -/
theorem C9_u16_two_bytes_little_endian_witness :
    u16 300 = .ok [0x2c, 0x01] := by
  have h := (C9_u16_two_bytes_little_endian 300 (by norm_num) (by norm_num)).1
  norm_num at h
  exact h

/-- C10: constructing a `Dongle` for a device whose variant is absent from
the table fails with the unsupported-variant assertion before any device I/O:
the event trace is empty, so no reset, configuration or control transfer has
been issued. -/
theorem C10_init_no_io_on_unsupported (bcd : Nat)
    (h : MEM_LAYOUTS.lookup bcd = none) :
    Dongle.init bcd = ([], .error (.assertionFailed bcd)) := by
  simp [Dongle.init, get_layout_for_dev, h]

/-- C10 witness: variant 0x1111 is unknown; `Dongle.__init__` fails with an
empty device-I/O trace. -/
theorem C10_init_no_io_on_unsupported_witness :
    Dongle.init 0x1111 = ([], .error (.assertionFailed 0x1111)) :=
  C10_init_no_io_on_unsupported 0x1111 (by decide)

/-- C1: for every layout in the static table and every full field-value set
whose values match the declared encodings, `construct_payload` returns the
buffer that is exactly zero padding and serialized values in field order; its
length is `last_field.address + last_field.encoded_length -
transfer_buffer_start`, each field's bytes sit at offset `field.address -
transfer_buffer_start`, and for variant 0x8391 the buffer begins with
`0x35d - 0x20f = 334` zero bytes followed by the 1-byte `usb_state` value. -/
theorem C1_encode_table_layouts_exact (a b w c ln : Int) (bs : List Nat)
    (ha0 : 0 ≤ a) (ha1 : a < 256) (hb0 : 0 ≤ b) (hb1 : b < 256)
    (hw0 : 0 ≤ w) (hw1 : w < 65536) (hc0 : 0 ≤ c) (hc1 : c < 256)
    (hl0 : 0 ≤ ln) (hl1 : ln < 65536) :
    (∃ p, layout8391.construct_payload (fullKw a b w c ln bs) = .ok p ∧
      p = List.replicate 334 0 ++ [a.toNat] ++ List.replicate 6 0 ++ [b.toNat]
        ++ List.replicate 12 0 ++ [w.toNat % 256, w.toNat / 256] ++ [c.toNat]
        ++ List.replicate 1 0 ++ [ln.toNat % 256, ln.toNat / 256]
        ++ List.replicate 24 0 ++ bs ∧
      p.length = 0x38f + bs.length - 0x20f ∧
      p.take 335 = List.replicate 334 0 ++ [a.toNat]) ∧
    (∃ p, layout0821.construct_payload (fullKw a b w c ln bs) = .ok p ∧
      p = List.replicate 373 0 ++ [a.toNat] ++ List.replicate 6 0 ++ [b.toNat]
        ++ List.replicate 12 0 ++ [w.toNat % 256, w.toNat / 256] ++ [c.toNat]
        ++ List.replicate 1 0 ++ [ln.toNat % 256, ln.toNat / 256]
        ++ List.replicate 17 0 ++ bs ∧
      p.length = 0x3a2 + bs.length - 0x202) ∧
    (∃ p, layout2517.construct_payload (fullKw a b w c ln bs) = .ok p ∧
      p = List.replicate 373 0 ++ [a.toNat] ++ List.replicate 6 0 ++ [b.toNat]
        ++ List.replicate 12 0 ++ [w.toNat % 256, w.toNat / 256] ++ [c.toNat]
        ++ List.replicate 1 0 ++ [ln.toNat % 256, ln.toNat / 256]
        ++ List.replicate 17 0 ++ bs ∧
      p.length = 0x3a2 + bs.length - 0x202) := by
  refine ⟨⟨_, cp8391_ok a b w c ln bs ha0 ha1 hb0 hb1 hw0 hw1 hc0 hc1 hl0 hl1,
      rfl, ?_, ?_⟩,
    ⟨_, cp0821_ok a b w c ln bs ha0 ha1 hb0 hb1 hw0 hw1 hc0 hc1 hl0 hl1,
      rfl, ?_⟩,
    ⟨_, by
      rw [layout2517_eq]
      exact cp0821_ok a b w c ln bs ha0 ha1 hb0 hb1 hw0 hw1 hc0 hc1 hl0 hl1,
      rfl, ?_⟩⟩
  · simp only [List.length_append, List.length_replicate, List.length_cons,
      List.length_nil]
    omega
  · norm_num [List.take_append_eq_append_take, List.take_replicate]
  · simp only [List.length_append, List.length_replicate, List.length_cons,
      List.length_nil]
    omega
  · simp only [List.length_append, List.length_replicate, List.length_cons,
      List.length_nil]
    omega

/-- C1 witness: the 0x8391 scenario, `usb_state = 2` in a full value set, all
other fields zero and empty data: the payload starts with 334 zero bytes
followed by the byte 2. -/
theorem C1_encode_table_layouts_exact_witness :
    ∃ p, layout8391.construct_payload (fullKw 2 2 0 0 0 []) = .ok p ∧
      p.take 335 = List.replicate 334 0 ++ [2] := by
  obtain ⟨⟨p, hok, hp, hlen, htake⟩, h0821, h2517⟩ :=
    C1_encode_table_layouts_exact 2 2 0 0 0 [] (by norm_num) (by norm_num)
      (by norm_num) (by norm_num) (by norm_num) (by norm_num) (by norm_num)
      (by norm_num) (by norm_num) (by norm_num)
  exact ⟨p, hok, by simpa using htake⟩

/-- C2: every `Dongle.write` call encodes exactly the field-value set the
spec prescribes (`usb_state = 2`, `req_state = 2`, `wptr = addr - 32`,
`addrspace` 0 for xdata and 1 for idata, `wlen = len(data) + 32`, `data`
verbatim), and issues exactly one raw control transfer, with request type
0x40, request code 0xD2, value and index 0, carrying the encoded payload —
the same primary-path transfer regardless of the target address space. -/
theorem C2_write_issues_one_transfer (l : MemLayout) (data : List Nat)
    (addr : Int) (idata : Bool) (hl : layoutValid l) (h1 : 32 ≤ addr)
    (h2 : addr < 65568) (h3 : data.length + 32 < 65536) :
    writeKwargs data addr idata = specWriteFieldValues data addr idata ∧
    ∃ p, l.construct_payload (specWriteFieldValues data addr idata) = .ok p ∧
      Dongle.write l data addr idata = .ok [⟨0x40, 0xd2, 0, 0, p⟩] := by
  refine ⟨writeKwargs_eq_spec data addr idata, ?_⟩
  have hwt : WellTypedOn (writeKwargs data addr idata) convTable := by
    rw [writeKwargs_eq_fullKw]
    exact fullKw_wellTyped (by norm_num) (by norm_num) (by norm_num) (by norm_num)
      (by omega) (by omega) (by cases idata <;> norm_num)
      (by cases idata <;> norm_num) (by positivity) (by omega)
  have hso : specOutcome l (writeKwargs data addr idata) = .success := by
    rw [writeKwargs_eq_fullKw, specOutcome_fullKw, if_pos hl]
  have hcl := construct_payload_classified l (writeKwargs data addr idata) hwt
  simp only [hso] at hcl
  obtain ⟨p, hp⟩ := hcl
  refine ⟨p, ?_, ?_⟩
  · rw [← writeKwargs_eq_spec]
    exact hp
  · simp [Dongle.write, hp]

/-- C2 witness: a concrete write of no data to the free-space start address
on the 0x8391 layout issues exactly one 0x40/0xD2 transfer. -/
theorem C2_write_issues_one_transfer_witness :
    ∃ p, layout8391.construct_payload (specWriteFieldValues [] 0x3a0 false) = .ok p ∧
      Dongle.write layout8391 [] 0x3a0 false = .ok [⟨0x40, 0xd2, 0, 0, p⟩] :=
  (C2_write_issues_one_transfer layout8391 [] 0x3a0 false
    (by norm_num [layoutValid, layout8391]) (by norm_num) (by norm_num)
    (by norm_num)).2

/-- C3: the `__main__` run invokes the three device-mutating steps in the
strict order upload, enable-execute-from-RAM, hijack-return-address: the
invoked-step trace is always a prefix of that order, the hijack step is only
reached when both earlier steps succeeded, and a failing step ends the run
with no later step invoked. -/
theorem C3_exploit_sequencing (ok : ExploitStep → Bool) :
    ((runExploitSteps ok).1 = [ExploitStep.upload] ∨
      (runExploitSteps ok).1 = [ExploitStep.upload, ExploitStep.enableXmap] ∨
      (runExploitSteps ok).1 =
        [ExploitStep.upload, ExploitStep.enableXmap, ExploitStep.hijackReturn]) ∧
    (ExploitStep.hijackReturn ∈ (runExploitSteps ok).1 →
      ok ExploitStep.upload = true ∧ ok ExploitStep.enableXmap = true ∧
      (runExploitSteps ok).1 =
        [ExploitStep.upload, ExploitStep.enableXmap, ExploitStep.hijackReturn]) ∧
    (ok ExploitStep.upload = false →
      (runExploitSteps ok).1 = [ExploitStep.upload] ∧
      (runExploitSteps ok).2 = false) ∧
    (ok ExploitStep.upload = true → ok ExploitStep.enableXmap = false →
      (runExploitSteps ok).1 = [ExploitStep.upload, ExploitStep.enableXmap] ∧
      (runExploitSteps ok).2 = false) := by
  cases h1 : ok .upload <;> cases h2 : ok .enableXmap <;>
    simp [runExploitSteps, h1, h2]

/-- C3 witness: with every write succeeding, the hijack step is reached and
the trace is exactly upload, enable-XMAP, hijack. -/
theorem C3_exploit_sequencing_witness :
    (runExploitSteps (fun _ => true)).1 =
      [ExploitStep.upload, ExploitStep.enableXmap, ExploitStep.hijackReturn] :=
  ((C3_exploit_sequencing (fun _ => true)).2.1 (by decide)).2.2

/-- C4 counterexample: `badLayout4` violates the nonnegative-padding layout
invariant, yet nothing catches it at construction or via an assertion before
device I/O: the session performs the reset and set-configuration I/O first,
and only then does the violation surface (as the encoder's ValueError), so
the claim "caught at construction or before any device I/O" is false on this
layout. -/
theorem C4_invariant_not_checked_counterexample :
    ¬ layoutValid badLayout4 ∧
    dongleSession badLayout4 [0] 0x3a0 =
      ([DevEvent.reset, DevEvent.setConfig], .error .valueError) ∧
    ([DevEvent.reset, DevEvent.setConfig] : List DevEvent) ≠ [] := by
  refine ⟨by norm_num [layoutValid, badLayout4], rfl, by simp⟩

/-- C4 amended: a layout violating the invariant is not rejected at
construction (the dataclass performs no checks); for every well-typed write
the reset and set-configuration I/O are issued first and the violation then
surfaces as the encoder's ValueError — after device I/O, though before any
raw control transfer is sent. -/
theorem C4_invariant_surfaces_after_io (l : MemLayout) (data : List Nat)
    (offset : Int) (hbad : ¬ layoutValid l) (h1 : 32 ≤ offset)
    (h2 : offset < 65568) (h3 : data.length + 32 < 65536) :
    dongleSession l data offset =
      ([DevEvent.reset, DevEvent.setConfig], .error .valueError) := by
  have hwt : WellTypedOn (writeKwargs data offset false) convTable := by
    rw [writeKwargs_eq_fullKw]
    exact fullKw_wellTyped (by norm_num) (by norm_num) (by norm_num) (by norm_num)
      (by omega) (by omega) (by norm_num) (by norm_num) (by positivity) (by omega)
  have hso : specOutcome l (writeKwargs data offset false) = .encodingError := by
    rw [writeKwargs_eq_fullKw, specOutcome_fullKw, if_neg hbad]
  have hcl := construct_payload_classified l (writeKwargs data offset false) hwt
  simp only [hso] at hcl
  simp [dongleSession, Dongle.write, hcl]

/-- C4 amended witness: the broken layout with two data bytes at 0x400. -/
theorem C4_invariant_surfaces_after_io_witness :
    dongleSession badLayout4 [1, 2] 0x400 =
      ([DevEvent.reset, DevEvent.setConfig], .error .valueError) :=
  C4_invariant_surfaces_after_io badLayout4 [1, 2] 0x400
    (by norm_num [layoutValid, badLayout4]) (by norm_num) (by norm_num)
    (by norm_num)

/-- C7: for every layout and well-typed value set, encoding fails with the
padding ValueError (the spec's EncodingError) exactly when the spec's
sequential scan reaches a field whose computed padding is negative, fails
with the KeyError (the spec's MissingFieldError) naming the first field the
scan finds absent, and in all other cases succeeds with the accumulated
buffer. -/
theorem C7_encode_error_taxonomy (l : MemLayout) (kw : FieldName → Option PyVal)
    (hwt : WellTypedOn kw convTable) :
    (specOutcome l kw = .encodingError →
      l.construct_payload kw = .error .valueError) ∧
    (∀ n, specOutcome l kw = .missingField n →
      l.construct_payload kw = .error (.keyError n)) ∧
    (specOutcome l kw = .success → ∃ p, l.construct_payload kw = .ok p) := by
  have h := construct_payload_classified l kw hwt
  refine ⟨fun hs => ?_, fun n hs => ?_, fun hs => ?_⟩ <;> rw [hs] at h <;> exact h

/-- C7 witness: a well-typed full value set on the 0x8391 layout encodes
successfully. -/
theorem C7_encode_error_taxonomy_witness :
    ∃ p, layout8391.construct_payload (fullKw 1 1 1 1 1 [5]) = .ok p := by
  refine (C7_encode_error_taxonomy layout8391 (fullKw 1 1 1 1 1 [5]) ?_).2.2 ?_
  · exact fullKw_wellTyped (by norm_num) (by norm_num) (by norm_num) (by norm_num)
      (by norm_num) (by norm_num) (by norm_num) (by norm_num) (by norm_num)
      (by norm_num)
  · rw [specOutcome_fullKw, if_pos (by norm_num [layoutValid, layout8391])]

/-- C8: the reappearance poller returns the device of the first iteration
whose claim/configure succeeds, returns none when all ten bounded attempts
fail, and a transient claim failure is treated exactly like an absent device
(only per-iteration readiness determines the result). -/
theorem C8_poller_bounded_retry (env : Nat → PollIter) :
    (∀ i, i < 10 → env i = .ready → (∀ j, j < i → env j ≠ .ready) →
      find_new_device_on_same_usb_port env = some i) ∧
    ((∀ i, i < 10 → env i ≠ .ready) →
      find_new_device_on_same_usb_port env = none) ∧
    (∀ env2 : Nat → PollIter, (∀ i, env i = .ready ↔ env2 i = .ready) →
      find_new_device_on_same_usb_port env = find_new_device_on_same_usb_port env2) := by
  refine ⟨fun i h1 hr h3 => ?_, fun h => ?_, fun env2 h => ?_⟩
  · exact pollLoop_finds env 10 0 i (Nat.zero_le i) (by omega) hr
      (fun j _ hj => h3 j hj)
  · exact pollLoop_exhausts env 10 0 (fun j _ hj => h j (by omega))
  · exact pollLoop_transient_congr env env2 h 10 0

/-- C8 witness: a locator that fails 9 times and succeeds on the 10th attempt
yields the device found at iteration 9. -/
theorem C8_poller_bounded_retry_witness :
    find_new_device_on_same_usb_port
      (fun i => if i = 9 then .ready else .absent) = some 9 :=
  (C8_poller_bounded_retry _).1 9 (by norm_num) (by norm_num)
    (fun j hj => by simp [Nat.ne_of_lt hj])

end OemFlasher
